import Mathlib

/-!
# Pensieve — verification of the Pattern Memory & Reflection Synthesis pipeline

Shallow embedding, in Lean 4, of the algorithmic parts of the Pensieve
repository, together with theorems settling the specification claims.

Sources embedded here:
* `constrain_confidence`, `detect_trend`, `is_cyclical`, `calculate_certainty`
  — Python reference implementations given in `docs/ml-pipeline.md`.
* `passwordChecks` / `handleSubmit` — the registration page of the Next.js
  frontend.
* Policy Engine eligibility, rate limiting, the Concept Retriever's
  fail-closed behaviour and the Synthesizer's atomic persistence are part of
  the backend, whose code is not in the repository snapshot; those are
  modelled from the spec (each such definition says so in its doc comment).

Real numbers of the Python code are embedded as exact rationals (`ℚ`).
-/

namespace Pensieve

/-! ## Rounding

Python's `round(x, 2)` rounds to 2 decimal places with ties going to the
even digit (banker's rounding).  `rInt` is round-half-to-even on `ℚ`,
`round2 x = rInt (x * 100) / 100`. -/

/-- Round a rational to the nearest integer, ties to even. -/
def rInt (x : ℚ) : ℤ :=
  if x - ⌊x⌋ < 1/2 then ⌊x⌋
  else if 1/2 < x - ⌊x⌋ then ⌊x⌋ + 1
  else if ⌊x⌋ % 2 = 0 then ⌊x⌋ else ⌊x⌋ + 1

/-- Round a rational to 2 decimal places, as Python's `round(x, 2)`. -/
def round2 (x : ℚ) : ℚ := (rInt (x * 100) : ℚ) / 100

theorem rInt_intCast (n : ℤ) : rInt (n : ℚ) = n := by
  simp [rInt]

theorem rInt_mono {x y : ℚ} (h : x ≤ y) : rInt x ≤ rInt y := by
  have hf : ⌊x⌋ ≤ ⌊y⌋ := Int.floor_le_floor h
  rcases lt_or_eq_of_le hf with hlt | heq
  · have hx2 : x < ⌊x⌋ + 1 := Int.lt_floor_add_one x
    have hy1 : (⌊y⌋ : ℚ) ≤ y := Int.floor_le y
    unfold rInt
    split_ifs <;> omega
  · unfold rInt
    rw [← heq]
    have hxy : x - ⌊x⌋ ≤ y - ⌊x⌋ := by linarith
    split_ifs <;> first | omega | linarith

theorem rInt_le_of_le_intCast {x : ℚ} {n : ℤ} (h : x ≤ (n : ℚ)) : rInt x ≤ n := by
  have := rInt_mono h
  rwa [rInt_intCast] at this

theorem round2_mono {x y : ℚ} (h : x ≤ y) : round2 x ≤ round2 y := by
  unfold round2
  have : rInt (x * 100) ≤ rInt (y * 100) := rInt_mono (by linarith)
  have hc : ((rInt (x * 100) : ℚ)) ≤ ((rInt (y * 100) : ℚ)) := by exact_mod_cast this
  linarith

/-! ## Confidence constraint (`docs/ml-pipeline.md`, "Confidence Constraints")

```python
MAX_CONFIDENCE = 0.80  # Hard cap

def constrain_confidence(raw_confidence):
    capped = min(raw_confidence, MAX_CONFIDENCE)
    if raw_confidence > 0.90:
        capped *= 0.95
    return round(capped, 2)
```
-/

def MAX_CONFIDENCE : ℚ := 80/100

def constrain_confidence (raw_confidence : ℚ) : ℚ :=
  let capped := min raw_confidence MAX_CONFIDENCE
  let capped := if 90/100 < raw_confidence then capped * (95/100) else capped
  round2 capped

theorem round2_le_of_le_80 {x : ℚ} (h : x ≤ 80/100) : round2 x ≤ 80/100 := by
  have h100 : x * 100 ≤ ((80 : ℤ) : ℚ) := by push_cast; linarith
  have := rInt_le_of_le_intCast h100
  unfold round2
  have hc : ((rInt (x * 100) : ℚ)) ≤ (80 : ℚ) := by exact_mod_cast this
  linarith

theorem constrain_confidence_le_cap (raw : ℚ) : constrain_confidence raw ≤ 80/100 := by
  unfold constrain_confidence
  by_cases h : 90/100 < raw
  · have hmin : min raw MAX_CONFIDENCE = 80/100 := by
      unfold MAX_CONFIDENCE
      exact min_eq_right (by linarith)
    simp only [h, if_true, hmin]
    apply round2_le_of_le_80
    norm_num
  · simp only [h, if_false]
    exact round2_le_of_le_80 (min_le_right _ _)

/-- C1: for every `raw_confidence` input, `constrain_confidence` computes
`min(raw_confidence, 0.80)`, and when `raw_confidence > 0.90` it additionally
multiplies that capped value by `0.95` before rounding to 2 decimals;
consequently the final confidence score is at most `0.80` for every input. -/
theorem c1_confidence_capping :
    (∀ raw : ℚ, raw ≤ 90/100 →
      constrain_confidence raw = round2 (min raw (80/100))) ∧
    (∀ raw : ℚ, 90/100 < raw →
      constrain_confidence raw = round2 (min raw (80/100) * (95/100))) ∧
    (∀ raw : ℚ, constrain_confidence raw ≤ 80/100) := by
  refine ⟨?_, ?_, constrain_confidence_le_cap⟩
  · intro raw h
    simp only [constrain_confidence, MAX_CONFIDENCE]
    rw [if_neg (not_lt.mpr h)]
  · intro raw h
    simp only [constrain_confidence, MAX_CONFIDENCE]
    rw [if_pos h]

/-- Witness for C1 at `raw_confidence = 0.50` and `raw_confidence = 0.95`. -/
theorem c1_confidence_capping_witness :
    constrain_confidence (50/100) = round2 (min (50/100) (80/100)) ∧
    constrain_confidence (95/100) = round2 (min (95/100) (80/100) * (95/100)) ∧
    constrain_confidence (95/100) ≤ 80/100 :=
  ⟨c1_confidence_capping.1 (50/100) (by norm_num),
   c1_confidence_capping.2.1 (95/100) (by norm_num),
   c1_confidence_capping.2.2 (95/100)⟩

/-- C8: the confidence transform never outputs more than `0.80`, and is
monotone non-decreasing where the raw confidence lies below `0.80`. -/
theorem c8_confidence_transform_bounded_monotone :
    (∀ raw : ℚ, constrain_confidence raw ≤ 80/100) ∧
    (∀ x y : ℚ, x ≤ y → y < 80/100 →
      constrain_confidence x ≤ constrain_confidence y) := by
  refine ⟨constrain_confidence_le_cap, ?_⟩
  intro x y hxy hy
  have hx : x < 80/100 := lt_of_le_of_lt hxy hy
  simp only [constrain_confidence, MAX_CONFIDENCE]
  rw [if_neg (by intro h; linarith : ¬ (90:ℚ)/100 < x),
      if_neg (by intro h; linarith : ¬ (90:ℚ)/100 < y),
      min_eq_left hx.le, min_eq_left hy.le]
  exact round2_mono hxy

/-- Witness for C8 at `x = 0.10 ≤ y = 0.20 < 0.80` and `raw = 0.95`. -/
theorem c8_confidence_transform_witness :
    constrain_confidence (95/100) ≤ 80/100 ∧
    constrain_confidence (10/100) ≤ constrain_confidence (20/100) :=
  ⟨c8_confidence_transform_bounded_monotone.1 (95/100),
   c8_confidence_transform_bounded_monotone.2 (10/100) (20/100)
     (by norm_num) (by norm_num)⟩

/-! ## Temporal Pattern Tracker (`docs/ml-pipeline.md`, "Trend Detection")

```python
def detect_trend(values, dates):
    if len(values) < 7:
        return "insufficient_data", 0.0, 0.0
    x = np.arange(len(values))
    slope, intercept, r_value, p_value, std_err = stats.linregress(x, values)
    if is_cyclical(values):
        return "cyclical", slope, r_value ** 2
    if p_value > 0.05:
        return "stable", slope, r_value ** 2
    if slope > 0.01:
        return "increasing", slope, r_value ** 2
    elif slope < -0.01:
        return "decreasing", slope, r_value ** 2
    else:
        return "stable", slope, r_value ** 2

def is_cyclical(values, min_periods=2):
    if len(values) < 14:
        return False
    autocorr = np.correlate(values - np.mean(values), values - np.mean(values), mode='full')
    autocorr = autocorr[len(autocorr)//2:]
    autocorr = autocorr / autocorr[0]
    weekly_lag = 7
    if len(autocorr) > weekly_lag and autocorr[weekly_lag] > 0.5:
        return True
    return False
```
-/

def mean (l : List ℚ) : ℚ := l.sum / l.length

def centered (l : List ℚ) : List ℚ := l.map (fun v => v - mean l)

def dot (a b : List ℚ) : ℚ := (List.zipWith (fun u v => u * v) a b).sum

/-- `np.arange n`, cast to rationals. -/
def idxs (n : ℕ) : List ℚ := (List.range n).map (fun i => (i : ℚ))

/-- The slope returned by `stats.linregress(np.arange(len(values)), values)`. -/
def linregressSlope (values : List ℚ) : ℚ :=
  let x := idxs values.length
  dot (centered x) (centered values) / dot (centered x) (centered x)

/-- `r_value ** 2` returned by `stats.linregress` (rational, unlike `r_value`). -/
def linregressR2 (values : List ℚ) : ℚ :=
  let x := idxs values.length
  (dot (centered x) (centered values))^2 /
    (dot (centered x) (centered x) * dot (centered values) (centered values))

/-- Entry `k` of the second half of `np.correlate(c, c, mode='full')`, i.e. the
(unnormalized) autocorrelation of `c` at lag `k`. -/
def autocorrAt (c : List ℚ) (k : ℕ) : ℚ := dot (c.drop k) c

def is_cyclical (values : List ℚ) : Bool :=
  if values.length < 14 then false
  else
    let c := centered values
    if 7 < values.length ∧ 1/2 < autocorrAt c 7 / autocorrAt c 0 then true
    else false

/-- `detect_trend` from `docs/ml-pipeline.md`.  `scipy.stats.linregress`
derives `p_value` from the t-distribution, a transcendental function outside
this rational embedding, so the p-value is abstracted as the oracle `pvalue`;
every theorem below holds for every oracle. -/
def detect_trend (pvalue : List ℚ → ℚ) (values : List ℚ) : String × ℚ × ℚ :=
  if values.length < 7 then ("insufficient_data", 0, 0)
  else
    let slope := linregressSlope values
    let r2 := linregressR2 values
    if is_cyclical values then ("cyclical", slope, r2)
    else if 1/20 < pvalue values then ("stable", slope, r2)
    else if 1/100 < slope then ("increasing", slope, r2)
    else if slope < -(1/100) then ("decreasing", slope, r2)
    else ("stable", slope, r2)

/-- C2: for every observation series of length strictly less than 7, the Trend
Engine returns direction `insufficient_data` with confidence 0, regardless of
the values in the series (and of the p-value oracle). -/
theorem c2_short_series_insufficient_data (pvalue : List ℚ → ℚ)
    (values : List ℚ) (h : values.length < 7) :
    detect_trend pvalue values = ("insufficient_data", 0, 0) := by
  unfold detect_trend
  rw [if_pos h]

/-- Witness for C2 on the 3-observation series `[0.9, 0.1, 0.9]`. -/
theorem c2_short_series_witness :
    ([9/10, 1/10, 9/10] : List ℚ).length < 7 ∧
    detect_trend (fun _ => 0) [9/10, 1/10, 9/10] = ("insufficient_data", 0, 0) :=
  ⟨by norm_num, c2_short_series_insufficient_data (fun v => 0) _ (by norm_num)⟩

/-- The 14-observation alternating series of the C5 scenario. -/
def vals14 : List ℚ :=
  [5/10, 1/10, 5/10, 1/10, 5/10, 1/10, 5/10,
   1/10, 5/10, 1/10, 5/10, 1/10, 5/10, 1/10]

/-- C5 counterexample: on the alternating 14-point series the code does NOT
classify the series as `cyclical`: `is_cyclical` is false there (the lag-7
autocorrelation of an alternating series is negative), and `detect_trend`
does not return direction `cyclical` whether the p-value branch is taken
(`pvalue = 1`) or not (`pvalue = 0`). -/
theorem c5_counterexample :
    is_cyclical vals14 = false ∧
    (detect_trend (fun _ => 0) vals14).1 ≠ "cyclical" ∧
    (detect_trend (fun _ => 1) vals14).1 ≠ "cyclical" := by
  have hcyc : is_cyclical vals14 = false := by
    norm_num [is_cyclical, vals14, autocorrAt, centered, dot, mean]
  refine ⟨hcyc, ?_, ?_⟩ <;>
    · simp only [detect_trend, hcyc]
      norm_num [vals14, linregressSlope, idxs, autocorrAt, centered, dot, mean,
        List.range_succ]
      decide

/-- C5 amended: on the alternating 14-point series the normalized lag-7
autocorrelation is `-0.5`, which does not exceed `0.5`, so `is_cyclical` is
false; the regression slope is `-2/325 ≈ -0.006`, inside the `±0.01`
stability band, so `detect_trend` classifies the series `stable` (never
`cyclical`) for every p-value oracle. -/
theorem c5_alternating_series_stable :
    autocorrAt (centered vals14) 7 / autocorrAt (centered vals14) 0 = -(1/2) ∧
    is_cyclical vals14 = false ∧
    linregressSlope vals14 = -(2/325) ∧
    ∀ pvalue : List ℚ → ℚ, (detect_trend pvalue vals14).1 = "stable" := by
  have hac : autocorrAt (centered vals14) 7 / autocorrAt (centered vals14) 0
      = -(1/2) := by
    norm_num [vals14, autocorrAt, centered, dot, mean]
  have hcyc : is_cyclical vals14 = false := by
    norm_num [is_cyclical, vals14, autocorrAt, centered, dot, mean]
  have hslope : linregressSlope vals14 = -(2/325) := by
    norm_num [linregressSlope, vals14, idxs, centered, dot, mean, List.range_succ]
  refine ⟨hac, hcyc, hslope, ?_⟩
  intro pvalue
  simp only [detect_trend, hcyc]
  rw [if_neg (by norm_num [vals14] : ¬ vals14.length < 7)]
  simp only [Bool.false_eq_true, if_false]
  by_cases hp : 1/20 < pvalue vals14
  · rw [if_pos hp]
  · rw [if_neg hp,
      if_neg (by rw [hslope]; norm_num : ¬ 1/100 < linregressSlope vals14),
      if_neg (by rw [hslope]; norm_num : ¬ linregressSlope vals14 < -(1/100))]

/-- Witness for C5 (amended) at the constant p-value oracle `37`. -/
theorem c5_alternating_series_witness :
    (detect_trend (fun _ => 37) vals14).1 = "stable" :=
  c5_alternating_series_stable.2.2.2 (fun _ => 37)

/-! ## Certainty scorer (`docs/ml-pipeline.md`, "Certainty Scoring")

```python
def calculate_certainty(text):
    words = text.lower().split()
    hedging = sum(1 for w in words if w in HEDGING_WORDS)
    certain = sum(1 for w in words if w in CERTAINTY_WORDS)
    total = hedging + certain
    if total == 0:
        return 0.5  # Neutral
    return certain / total
```

A Python string is embedded as its list of characters.  `splitWs` is
`str.split()` with no argument: split on whitespace runs, no empty pieces. -/

def splitWsAux : List Char → List Char → List (List Char)
  | [], acc => if acc = [] then [] else [acc.reverse]
  | c :: cs, acc =>
      if c.isWhitespace then
        if acc = [] then splitWsAux cs [] else acc.reverse :: splitWsAux cs []
      else splitWsAux cs (c :: acc)

def splitWs (cs : List Char) : List (List Char) := splitWsAux cs []

def HEDGING_WORDS : List (List Char) :=
  ["might".toList, "maybe".toList, "perhaps".toList, "possibly".toList,
   "probably".toList, "could".toList, "would".toList, "should".toList,
   "seem".toList, "appear".toList, "guess".toList, "think".toList,
   "believe".toList, "feel".toList, "suppose".toList]

def CERTAINTY_WORDS : List (List Char) :=
  ["definitely".toList, "certainly".toList, "absolutely".toList,
   "always".toList, "never".toList, "must".toList, "will".toList,
   "know".toList, "sure".toList, "certain".toList]

def calculate_certainty (text : List Char) : ℚ :=
  let words := splitWs (text.map Char.toLower)
  let hedging := (words.filter (fun w => HEDGING_WORDS.contains w)).length
  let certain := (words.filter (fun w => CERTAINTY_WORDS.contains w)).length
  let total := hedging + certain
  if total = 0 then 1/2 else (certain : ℚ) / (total : ℚ)

/-- C9: `calculate_certainty` always lands in `[0,1]`; the division is only
reached when `total > 0` because the `total == 0` branch returns first, and
for any text containing no hedging-lexicon word and no certainty-lexicon word
the result is exactly the neutral value `0.5`. -/
theorem c9_certainty_total_and_neutral (text : List Char) :
    (0 ≤ calculate_certainty text ∧ calculate_certainty text ≤ 1) ∧
    ((∀ w ∈ splitWs (text.map Char.toLower),
        ¬ HEDGING_WORDS.contains w ∧ ¬ CERTAINTY_WORDS.contains w) →
      calculate_certainty text = 1/2) := by
  simp only [calculate_certainty]
  constructor
  · by_cases htot :
        (splitWs (text.map Char.toLower) |>.filter
          (fun w => HEDGING_WORDS.contains w)).length +
        (splitWs (text.map Char.toLower) |>.filter
          (fun w => CERTAINTY_WORDS.contains w)).length = 0
    · rw [if_pos htot]
      norm_num
    · rw [if_neg htot]
      have hpos : (0:ℚ) <
          (((splitWs (text.map Char.toLower) |>.filter
              (fun w => HEDGING_WORDS.contains w)).length +
            (splitWs (text.map Char.toLower) |>.filter
              (fun w => CERTAINTY_WORDS.contains w)).length : ℕ) : ℚ) := by
        exact_mod_cast Nat.pos_of_ne_zero htot
      refine ⟨div_nonneg (by positivity) (by positivity), ?_⟩
      rw [div_le_one hpos]
      exact_mod_cast Nat.le_add_left _ _
  · intro hnone
    have h1 : (splitWs (text.map Char.toLower)).filter
        (fun w => HEDGING_WORDS.contains w) = [] := by
      rw [List.filter_eq_nil_iff]
      intro a ha
      simpa using (hnone a ha).1
    have h2 : (splitWs (text.map Char.toLower)).filter
        (fun w => CERTAINTY_WORDS.contains w) = [] := by
      rw [List.filter_eq_nil_iff]
      intro a ha
      simpa using (hnone a ha).2
    rw [h1, h2]
    norm_num

/-- Witness for C9 on the lexicon-free text `"hello there friend"`. -/
theorem c9_certainty_witness :
    (0 ≤ calculate_certainty "hello there friend".toList ∧
      calculate_certainty "hello there friend".toList ≤ 1) ∧
    calculate_certainty "hello there friend".toList = 1/2 :=
  ⟨(c9_certainty_total_and_neutral "hello there friend".toList).1,
   (c9_certainty_total_and_neutral "hello there friend".toList).2 (by decide)⟩

/-! ## Registration page (frontend `RegisterPage`)

```ts
const passwordChecks = {
  length: password.length >= 8,
  lowercase: /[a-z]/.test(password),
  uppercase: /[A-Z]/.test(password),
  number: /\d/.test(password),
  match: password === confirmPassword && confirmPassword.length > 0,
};
const isPasswordValid = Object.values(passwordChecks).every(Boolean);
const handleSubmit = async (e) => {
  e.preventDefault();
  setError('');
  if (!isPasswordValid) {
    setError('Please meet all password requirements');
    return;
  }
  ...
  await api.register(email, password);
  ...
};
```

The TS field `match` is a Lean keyword, embedded as `pwMatch`. -/

structure PasswordChecks where
  length : Bool
  lowercase : Bool
  uppercase : Bool
  number : Bool
  pwMatch : Bool

def passwordChecks (password confirmPassword : String) : PasswordChecks where
  length := decide (8 ≤ password.length)
  lowercase := password.toList.any (fun ch => decide ('a' ≤ ch) && decide (ch ≤ 'z'))
  uppercase := password.toList.any (fun ch => decide ('A' ≤ ch) && decide (ch ≤ 'Z'))
  number := password.toList.any (fun ch => decide ('0' ≤ ch) && decide (ch ≤ '9'))
  pwMatch := password == confirmPassword && decide (0 < confirmPassword.length)

def isPasswordValid (password confirmPassword : String) : Bool :=
  (passwordChecks password confirmPassword).length &&
  (passwordChecks password confirmPassword).lowercase &&
  (passwordChecks password confirmPassword).uppercase &&
  (passwordChecks password confirmPassword).number &&
  (passwordChecks password confirmPassword).pwMatch

/-- The observable outcome of one submit: either the error message is set and
no API request goes out, or `api.register(email, password)` is called (the
subsequent `api.login` and redirect are not modelled). -/
inductive SubmitAction where
  | errorSet (msg : String)
  | apiRegister (email password : String)
deriving DecidableEq

def handleSubmit (email password confirmPassword : String) : SubmitAction :=
  if isPasswordValid password confirmPassword = false then
    .errorSet "Please meet all password requirements"
  else .apiRegister email password

theorem isPasswordValid_iff (p c : String) :
    isPasswordValid p c = true ↔
      (8 ≤ p.length ∧ (∃ ch ∈ p.toList, 'a' ≤ ch ∧ ch ≤ 'z') ∧
       (∃ ch ∈ p.toList, 'A' ≤ ch ∧ ch ≤ 'Z') ∧
       (∃ ch ∈ p.toList, '0' ≤ ch ∧ ch ≤ '9') ∧ p = c ∧ 0 < c.length) := by
  simp only [isPasswordValid, passwordChecks, Bool.and_eq_true, List.any_eq_true,
    decide_eq_true_eq, beq_iff_eq, and_assoc]

/-- C10: the submit handler calls `api.register` exactly when every password
check holds — length at least 8, a lowercase letter, an uppercase letter, a
digit, and a non-empty confirmation equal to the password; if any check
fails it sets the error message and performs no API call. -/
theorem c10_register_gate (email password confirm : String) :
    (handleSubmit email password confirm = .apiRegister email password ↔
      (8 ≤ password.length ∧
       (∃ ch ∈ password.toList, 'a' ≤ ch ∧ ch ≤ 'z') ∧
       (∃ ch ∈ password.toList, 'A' ≤ ch ∧ ch ≤ 'Z') ∧
       (∃ ch ∈ password.toList, '0' ≤ ch ∧ ch ≤ '9') ∧
       password = confirm ∧ 0 < confirm.length)) ∧
    (isPasswordValid password confirm = false →
      handleSubmit email password confirm =
        .errorSet "Please meet all password requirements") := by
  constructor
  · rw [← isPasswordValid_iff]
    unfold handleSubmit
    cases h : isPasswordValid password confirm <;> simp
  · intro h
    unfold handleSubmit
    rw [if_pos h]

/-- Witness for C10: a compliant password registers, a short one only sets
the error message. -/
theorem c10_register_gate_witness :
    handleSubmit "a@b.c" "Passw0rd" "Passw0rd" = .apiRegister "a@b.c" "Passw0rd" ∧
    handleSubmit "a@b.c" "short" "short" =
      .errorSet "Please meet all password requirements" :=
  ⟨(c10_register_gate "a@b.c" "Passw0rd" "Passw0rd").1.mpr (by decide),
   (c10_register_gate "a@b.c" "short" "short").2 (by decide)⟩

/-! ## Policy Engine eligibility gate (spec §4.4 step 1)

The backend Policy Engine code is not in the repository snapshot; only the
schema CHECK `array_length(entry_ids, 1) >= 3` and the frontend empty-state
copy ("at least 3 entries spanning 7 or more days") witness it. -/

/-- Modelled from the spec: the Policy Engine eligibility predicate, whose
backend implementation is missing from the snapshot.  "Eligibility: requires
≥3 contributing entries spanning ≥7 distinct days; else reject with
`insufficient_evidence`." -/
def eligible (numEntries spanDays : ℕ) : Bool :=
  decide (3 ≤ numEntries) && decide (7 ≤ spanDays)

/-- C3: the eligibility gate accepts iff there are at least 3 contributing
entries spanning at least 7 distinct days; 2 entries over 10 days and
3 entries over 6 days are ineligible, 3 entries over 7 days is eligible. -/
theorem c3_eligibility_gate :
    (∀ numEntries spanDays : ℕ,
      eligible numEntries spanDays = true ↔ (3 ≤ numEntries ∧ 7 ≤ spanDays)) ∧
    eligible 2 10 = false ∧ eligible 3 6 = false ∧ eligible 3 7 = true :=
  ⟨fun n s => by simp [eligible], by decide, by decide, by decide⟩

/-- Witness for C3 instantiating the iff at 4 entries over 9 days. -/
theorem c3_eligibility_gate_witness : eligible 4 9 = true :=
  (c3_eligibility_gate.1 4 9).mpr (by decide)

/-! ## Rate limiting (spec §4.4 step 2, §4.5)

The backend rate limiter is not in the repository snapshot (the README's
"Ethical Constraints (Enforced in Code)" table documents it). -/

/-- Modelled from the spec: one accepted reflection in a user's ledger — the
day (as a day number) it was accepted, and whether the user has since
dismissed it.  The backend persistence of this ledger is missing from the
snapshot. -/
structure AcceptedReflection where
  day : ℕ
  dismissed : Bool
deriving DecidableEq

/-- `day` lies in the rolling 7-day window ending at `endDay`. -/
def inWindow (endDay day : ℕ) : Bool :=
  decide (day ≤ endDay) && decide (endDay < day + 7)

/-- Accepted reflections in the rolling 7-day window ending at `endDay`;
dismissal does not remove a reflection from this count. -/
def countWindow (s : List AcceptedReflection) (endDay : ℕ) : ℕ :=
  s.countP (fun r => inWindow endDay r.day)

inductive AttemptResult where
  | accepted
  | rateLimited
deriving DecidableEq

/-- Modelled from the spec: Policy Engine step 2, whose backend code is
missing from the snapshot — "at most 2 accepted reflections per rolling 7-day
window per user; else reject with `rate_limited`", as an optimistic
check-then-increment on the ledger. -/
def attemptReflection (s : List AcceptedReflection) (d : ℕ) :
    List AcceptedReflection × AttemptResult :=
  if 2 ≤ countWindow s d then (s, .rateLimited)
  else (⟨d, false⟩ :: s, .accepted)

/-- Modelled from the spec: dismissal "sets `dismissed_at`, does not delete,
does not affect rate-limit accounting for past runs"; the entry at position
`i` is flagged, never removed. -/
def dismissReflection : List AcceptedReflection → ℕ → List AcceptedReflection
  | [], _ => []
  | r :: rs, 0 => ⟨r.day, true⟩ :: rs
  | r :: rs, i + 1 => r :: dismissReflection rs i

/-- Ledgers reachable from an empty ledger by attempts and dismissals.
Per spec §5, runs for one user are serialized in time order, so an attempt
happens no earlier than every already-accepted reflection. -/
inductive ReachableLedger : List AcceptedReflection → Prop where
  | empty : ReachableLedger []
  | attempt (s : List AcceptedReflection) (d : ℕ) :
      ReachableLedger s → (∀ r ∈ s, r.day ≤ d) →
      ReachableLedger (attemptReflection s d).1
  | dismiss (s : List AcceptedReflection) (i : ℕ) :
      ReachableLedger s → ReachableLedger (dismissReflection s i)

theorem inWindow_trans {e d t : ℕ} (ht : t ≤ d) (hd : inWindow e d = true)
    (he : inWindow e t = true) : inWindow d t = true := by
  simp only [inWindow, Bool.and_eq_true, decide_eq_true_eq] at *
  omega

theorem countWindow_le (s : List AcceptedReflection) {d : ℕ} (e : ℕ)
    (hdays : ∀ r ∈ s, r.day ≤ d) (hde : inWindow e d = true) :
    countWindow s e ≤ countWindow s d := by
  induction s with
  | nil => simp [countWindow]
  | cons r rs ih =>
    have hr : r.day ≤ d := hdays r (List.mem_cons_self r rs)
    have hrs : ∀ x ∈ rs, x.day ≤ d := fun x hx => hdays x (List.mem_cons_of_mem r hx)
    simp only [countWindow, List.countP_cons] at *
    by_cases hre : inWindow e r.day = true
    · rw [if_pos hre, if_pos (inWindow_trans hr hde hre)]
      have := ih hrs
      omega
    · rw [if_neg hre]
      have := ih hrs
      split_ifs <;> omega

theorem countWindow_dismiss (s : List AcceptedReflection) (i e : ℕ) :
    countWindow (dismissReflection s i) e = countWindow s e := by
  induction s generalizing i with
  | nil => rfl
  | cons r rs ih =>
    cases i with
    | zero => simp [dismissReflection, countWindow, List.countP_cons]
    | succ j =>
      simp only [dismissReflection, countWindow, List.countP_cons] at *
      rw [ih j]

theorem reachable_window_bound {s : List AcceptedReflection}
    (h : ReachableLedger s) : ∀ e, countWindow s e ≤ 2 := by
  induction h with
  | empty => intro e; simp [countWindow]
  | attempt s d hs hdays ih =>
    intro e
    by_cases hfull : 2 ≤ countWindow s d
    · simpa [attemptReflection, hfull] using ih e
    · simp only [attemptReflection, hfull, if_false]
      simp only [countWindow, List.countP_cons]
      by_cases hwe : inWindow e d = true
      · have h1 := countWindow_le s e hdays hwe
        simp only [countWindow] at h1 hfull
        rw [if_pos hwe]
        omega
      · rw [if_neg hwe]
        have := ih e
        simp only [countWindow] at this
        omega
  | dismiss s i hs ih =>
    intro e
    rw [countWindow_dismiss]
    exact ih e

/-- C4: in every reachable ledger no rolling 7-day window holds more than 2
accepted reflections; an attempt against a window already holding 2 is
rejected `rateLimited` and changes nothing; and dismissing never changes any
window's count (no quota refund). -/
theorem c4_rate_limit :
    (∀ s : List AcceptedReflection, ReachableLedger s →
      ∀ e, countWindow s e ≤ 2) ∧
    (∀ (s : List AcceptedReflection) (d : ℕ), 2 ≤ countWindow s d →
      attemptReflection s d = (s, AttemptResult.rateLimited)) ∧
    (∀ (s : List AcceptedReflection) (i e : ℕ),
      countWindow (dismissReflection s i) e = countWindow s e) :=
  ⟨fun _ h => reachable_window_bound h,
   fun _ _ h => by simp [attemptReflection, h],
   countWindow_dismiss⟩

/-- Witness for C4: an empty ledger's window count, a third attempt against
a full window on day 2, and a dismissal that changes no count. -/
theorem c4_rate_limit_witness :
    countWindow [] 3 ≤ 2 ∧
    attemptReflection [⟨1, false⟩, ⟨0, false⟩] 2 =
      ([⟨1, false⟩, ⟨0, false⟩], AttemptResult.rateLimited) ∧
    countWindow (dismissReflection [⟨1, false⟩, ⟨0, false⟩] 0) 4 =
      countWindow [⟨1, false⟩, ⟨0, false⟩] 4 :=
  ⟨c4_rate_limit.1 [] ReachableLedger.empty 3,
   c4_rate_limit.2.1 [⟨1, false⟩, ⟨0, false⟩] 2 (by decide),
   c4_rate_limit.2.2 [⟨1, false⟩, ⟨0, false⟩] 0 4⟩

/-! ## Reflection Synthesizer persistence (spec §4.5) and Concept Retriever
(spec §4.3)

The backend synthesizer and retriever are not in the repository snapshot;
only the `reflections` and `audit_log` tables witness them. -/

/-- The persisted state: reflection ids and the reflection ids carrying an
audit trace. -/
structure DB where
  reflections : List ℕ
  audits : List ℕ
deriving DecidableEq

inductive RunResult where
  | ineligible
  | rejectedNoGrounding
  | rejectedPolicy
  | emitted (id : ℕ)
deriving DecidableEq

/-- Modelled from the spec: one §4.5 synthesizer run, whose backend code is
missing from the snapshot.  Eligibility, retrieval and the remaining policy
checks happen in order; every terminal rejection persists nothing, and only
the `Emitted` transition persists the Reflection and its AuditTrace, in one
atomic step.  A cancelled run is one that never reaches this function. -/
def runSynthesizer (db : DB) (eligibleEvidence : Bool) (retrieved : List ℕ)
    (policyOk : Bool) (newId : ℕ) : DB × RunResult :=
  if eligibleEvidence = false then (db, .ineligible)
  else if retrieved.isEmpty then (db, .rejectedNoGrounding)
  else if policyOk = false then (db, .rejectedPolicy)
  else (⟨newId :: db.reflections, newId :: db.audits⟩, .emitted newId)

/-- Persisted states reachable from an empty store via synthesizer runs. -/
inductive ReachableDB : DB → Prop where
  | init : ReachableDB ⟨[], []⟩
  | run (db : DB) (e : Bool) (ret : List ℕ) (p : Bool) (i : ℕ) :
      ReachableDB db → ReachableDB (runSynthesizer db e ret p i).1

theorem reachableDB_eq {db : DB} (h : ReachableDB db) :
    db.reflections = db.audits := by
  induction h with
  | init => rfl
  | run db e ret p i hdb ih =>
    simp only [runSynthesizer]
    split_ifs <;> simp [ih]

/-- C6: in every reachable persisted state a Reflection exists iff its
AuditTrace exists, and every run that does not emit leaves the persisted
state untouched — no partial Reflection or AuditTrace on any rejection
path. -/
theorem c6_atomic_persistence :
    (∀ db : DB, ReachableDB db →
      ∀ id : ℕ, (id ∈ db.reflections ↔ id ∈ db.audits)) ∧
    (∀ (db : DB) (e : Bool) (ret : List ℕ) (p : Bool) (i : ℕ),
      (runSynthesizer db e ret p i).2 ≠ RunResult.emitted i →
      (runSynthesizer db e ret p i).1 = db) := by
  constructor
  · intro db h id
    rw [reachableDB_eq h]
  · intro db e ret p i h
    unfold runSynthesizer at h ⊢
    split_ifs at h ⊢ <;> simp_all

/-- Witness for C6 at the empty store and an ineligible run. -/
theorem c6_atomic_persistence_witness :
    ((5 : ℕ) ∈ (⟨[], []⟩ : DB).reflections ↔ (5 : ℕ) ∈ (⟨[], []⟩ : DB).audits) ∧
    (runSynthesizer ⟨[], []⟩ false [] true 7).1 = ⟨[], []⟩ :=
  ⟨c6_atomic_persistence.1 ⟨[], []⟩ ReachableDB.init 5,
   c6_atomic_persistence.2 ⟨[], []⟩ false [] true 7 (by decide)⟩

/-- Modelled from the spec: the Concept Retriever, whose backend code is
missing from the snapshot.  Cosine similarity of a corpus concept to the
query embedding involves a real square root, so it enters as the external
function `sim`; concepts are deduplicated by id, only those clearing the
minimum similarity floor survive, and the top `k` by similarity (ties kept
in corpus insertion order by a stable sort) are returned. -/
def retrieveConcepts (sim : ℕ → ℚ) (corpus : List ℕ) (simFloor : ℚ)
    (k : ℕ) : List ℕ :=
  let cleared := (corpus.dedup).filter (fun c => decide (simFloor ≤ sim c))
  (cleared.mergeSort (fun a b => decide (sim b ≤ sim a))).take k

/-- C7: when no corpus concept reaches the similarity floor the retriever
returns the empty set rather than a forced weak match, and the synthesizer
run over that empty retrieval terminates `rejectedNoGrounding` with the
persisted state untouched. -/
theorem c7_retriever_fails_closed (sim : ℕ → ℚ) (corpus : List ℕ)
    (simFloor : ℚ) (k : ℕ) (db : DB) (policyOk : Bool) (newId : ℕ)
    (hbelow : ∀ c ∈ corpus, sim c < simFloor) :
    retrieveConcepts sim corpus simFloor k = [] ∧
    runSynthesizer db true (retrieveConcepts sim corpus simFloor k)
        policyOk newId = (db, RunResult.rejectedNoGrounding) := by
  have hret : retrieveConcepts sim corpus simFloor k = [] := by
    have hfil : (corpus.dedup).filter (fun c => decide (simFloor ≤ sim c)) = [] := by
      rw [List.filter_eq_nil_iff]
      intro c hc
      simp only [decide_eq_true_eq, not_le]
      exact hbelow c (List.mem_dedup.mp hc)
    simp [retrieveConcepts, hfil]
  refine ⟨hret, ?_⟩
  rw [hret]
  rfl

/-- Witness for C7: a 3-concept corpus whose similarities all fall below the
floor. -/
theorem c7_retriever_fails_closed_witness :
    retrieveConcepts (fun _ => 0) [1, 2, 3] 1 3 = [] ∧
    runSynthesizer ⟨[], []⟩ true (retrieveConcepts (fun _ => 0) [1, 2, 3] 1 3)
        true 9 = (⟨[], []⟩, RunResult.rejectedNoGrounding) :=
  c7_retriever_fails_closed (fun _ => 0) [1, 2, 3] 1 3 ⟨[], []⟩ true 9
    (by intro c _; norm_num)

end Pensieve
